import Mathlib

/-
Verification of the veilid_demo chat program (src/veilid_demo/chat.py and
src/veilid_demo/config.py) against its natural-language specification.

Conventions of the shallow embedding:
  * a byte string is a `List Nat` (each element intended < 256);
  * a text string is a `List Nat` of Unicode code points (`strCodes` turns a
    Lean string literal into this form);
  * the external crypto substrate's unauthenticated stream cipher
    `crypt_no_auth(data, nonce, secret)` is modelled, for a fixed secret, by a
    keystream function `cks : List Nat → Nat → Nat` giving the keystream byte
    of a nonce at an index; encryption XORs data bytes against the keystream,
    which is exactly the substrate's documented contract (the same call both
    encrypts and decrypts);
  * fallible operations return `Option`.
-/

/-- Unicode scalar values: what a well-formed text string may contain
(and exactly what Python `str.encode` accepts). -/
def ValidCodepoint (c : Nat) : Prop := c < 55296 ∨ (57344 ≤ c ∧ c < 1114112)

instance (c : Nat) : Decidable (ValidCodepoint c) := by
  unfold ValidCodepoint; infer_instance

/-- Code points of a Lean string literal, used to write concrete messages. -/
def strCodes (s : String) : List Nat := s.data.map Char.toNat

/-- UTF-8 encoding of a single code point (Python `str.encode("utf-8")`,
one character). -/
def utf8EncodeChar (c : Nat) : List Nat :=
  if c < 128 then [c]
  else if c < 2048 then [192 + c / 64, 128 + c % 64]
  else if c < 65536 then [224 + c / 4096, 128 + c / 64 % 64, 128 + c % 64]
  else [240 + c / 262144, 128 + c / 4096 % 64, 128 + c / 64 % 64, 128 + c % 64]

/-- UTF-8 encoding of a string of code points (Python `str.encode`). -/
def utf8Encode : List Nat → List Nat
  | [] => []
  | c :: cs => utf8EncodeChar c ++ utf8Encode cs

/-- Strict decoding of one UTF-8 character from the front of a byte string:
rejects stray or missing continuation bytes, overlong forms, surrogates and
out-of-range values. -/
def utf8DecodeChar1 : List Nat → Option (Nat × List Nat)
  | [] => none
  | b0 :: rest =>
    if b0 < 128 then some (b0, rest)
    else if b0 < 194 then none
    else if b0 < 224 then
      match rest with
      | b1 :: rest1 =>
        if 128 ≤ b1 ∧ b1 < 192 then some ((b0 - 192) * 64 + (b1 - 128), rest1)
        else none
      | [] => none
    else if b0 < 240 then
      match rest with
      | b1 :: b2 :: rest2 =>
        if 128 ≤ b1 ∧ b1 < 192 ∧ 128 ≤ b2 ∧ b2 < 192 then
          if (b0 - 224) * 4096 + (b1 - 128) * 64 + (b2 - 128) < 2048 ∨
             (55296 ≤ (b0 - 224) * 4096 + (b1 - 128) * 64 + (b2 - 128) ∧
              (b0 - 224) * 4096 + (b1 - 128) * 64 + (b2 - 128) < 57344) then none
          else some ((b0 - 224) * 4096 + (b1 - 128) * 64 + (b2 - 128), rest2)
        else none
      | _ => none
    else if b0 < 245 then
      match rest with
      | b1 :: b2 :: b3 :: rest3 =>
        if 128 ≤ b1 ∧ b1 < 192 ∧ 128 ≤ b2 ∧ b2 < 192 ∧ 128 ≤ b3 ∧ b3 < 192 then
          if (b0 - 240) * 262144 + (b1 - 128) * 4096 + (b2 - 128) * 64 + (b3 - 128) < 65536 ∨
             1114112 ≤ (b0 - 240) * 262144 + (b1 - 128) * 4096 + (b2 - 128) * 64 + (b3 - 128)
          then none
          else
            some ((b0 - 240) * 262144 + (b1 - 128) * 4096 + (b2 - 128) * 64 + (b3 - 128), rest3)
        else none
      | _ => none
    else none

/-- Fuel-bounded UTF-8 decoding loop; the fuel is an upper bound on the number
of characters, so `utf8Decode` below always supplies enough. -/
def utf8DecodeAux : Nat → List Nat → Option (List Nat)
  | _, [] => some []
  | 0, _ :: _ => none
  | fuel + 1, b0 :: rest =>
    match utf8DecodeChar1 (b0 :: rest) with
    | none => none
    | some (c, rest1) => (utf8DecodeAux fuel rest1).map (fun cs => c :: cs)

/-- Strict UTF-8 decoding (Python `bytes.decode("utf-8")`); `none` models
`UnicodeDecodeError`. -/
def utf8Decode (l : List Nat) : Option (List Nat) := utf8DecodeAux l.length l

theorem utf8DecodeChar1_encodeChar (c : Nat) (rest : List Nat) (h : ValidCodepoint c) :
    utf8DecodeChar1 (utf8EncodeChar c ++ rest) = some (c, rest) := by
  rcases Nat.lt_or_ge c 128 with h1 | h1
  · rw [utf8EncodeChar, if_pos h1]
    simp only [List.cons_append, List.nil_append, utf8DecodeChar1, if_pos h1]
  · rcases Nat.lt_or_ge c 2048 with h2 | h2
    · rw [utf8EncodeChar, if_neg (by omega), if_pos h2]
      simp only [List.cons_append, List.nil_append, utf8DecodeChar1]
      rw [if_neg (by omega), if_neg (by omega), if_pos (by omega), if_pos (by omega)]
      have hc : (192 + c / 64 - 192) * 64 + (128 + c % 64 - 128) = c := by omega
      rw [hc]
    · rcases Nat.lt_or_ge c 65536 with h3 | h3
      · rw [utf8EncodeChar, if_neg (by omega), if_neg (by omega), if_pos h3]
        simp only [List.cons_append, List.nil_append, utf8DecodeChar1]
        rw [if_neg (by omega), if_neg (by omega), if_neg (by omega), if_pos (by omega),
          if_pos (by omega)]
        have hc : (224 + c / 4096 - 224) * 4096 + (128 + c / 64 % 64 - 128) * 64 +
            (128 + c % 64 - 128) = c := by
          have h64 : c / 4096 = c / 64 / 64 := by
            rw [Nat.div_div_eq_div_mul]
          omega
        rw [if_neg (by rw [hc]; rcases h with h | h <;> omega), hc]
      · have h4 : c < 1114112 := by rcases h with h | h <;> omega
        rw [utf8EncodeChar, if_neg (by omega), if_neg (by omega), if_neg (by omega)]
        simp only [List.cons_append, List.nil_append, utf8DecodeChar1]
        rw [if_neg (by omega), if_neg (by omega), if_neg (by omega), if_neg (by omega),
          if_pos (by omega), if_pos (by omega)]
        have hc : (240 + c / 262144 - 240) * 262144 + (128 + c / 4096 % 64 - 128) * 4096 +
            (128 + c / 64 % 64 - 128) * 64 + (128 + c % 64 - 128) = c := by
          have ha : c / 262144 = c / 64 / 64 / 64 := by
            rw [Nat.div_div_eq_div_mul, Nat.div_div_eq_div_mul]
          have hb : c / 4096 = c / 64 / 64 := by
            rw [Nat.div_div_eq_div_mul]
          omega
        rw [if_neg (by rw [hc]; omega), hc]

theorem utf8EncodeChar_length_pos (c : Nat) : 0 < (utf8EncodeChar c).length := by
  rw [utf8EncodeChar]
  repeat' split
  all_goals simp

theorem utf8DecodeAux_encode (s : List Nat) :
    ∀ fuel : Nat, (∀ c ∈ s, ValidCodepoint c) → (utf8Encode s).length ≤ fuel →
    utf8DecodeAux fuel (utf8Encode s) = some s := by
  induction s with
  | nil => intro fuel _ _; cases fuel <;> rfl
  | cons c cs ih =>
    intro fuel hv hlen
    have hcpos := utf8EncodeChar_length_pos c
    have hlen1 : 0 < (utf8Encode (c :: cs)).length := by
      rw [utf8Encode, List.length_append]; omega
    obtain ⟨b0, bs, hb⟩ : ∃ b0 bs, utf8Encode (c :: cs) = b0 :: bs := by
      cases hwhole : utf8Encode (c :: cs) with
      | nil => rw [hwhole] at hlen1; simp at hlen1
      | cons b0 bs => exact ⟨b0, bs, rfl⟩
    obtain ⟨f, rfl⟩ : ∃ f, fuel = f + 1 := by
      rw [hb] at hlen; simp at hlen
      exact ⟨fuel - 1, by omega⟩
    rw [hb, utf8DecodeAux, ← hb]
    rw [utf8Encode, utf8DecodeChar1_encodeChar c _ (hv c (by simp))]
    have hrec : utf8DecodeAux f (utf8Encode cs) = some cs := by
      apply ih f (fun x hx => hv x (by simp [hx]))
      rw [utf8Encode, List.length_append] at hlen
      omega
    show Option.map (fun x => c :: x) (utf8DecodeAux f (utf8Encode cs)) = some (c :: cs)
    rw [hrec]
    rfl

theorem utf8Decode_encode (s : List Nat) (h : ∀ c ∈ s, ValidCodepoint c) :
    utf8Decode (utf8Encode s) = some s :=
  utf8DecodeAux_encode s _ h (Nat.le_refl _)

/- Message codec, from src/veilid_demo/chat.py. -/

/-- NONCE_LENGTH from chat.py line 17. -/
def NONCE_LENGTH : Nat := 24

/-- XOR of a byte list against a keystream `ks`, starting at stream index `i`.
Applying the same keystream twice is the identity, which is the defining
property of the substrate's `crypt_no_auth` (the same call encrypts and
decrypts). -/
def cryptFrom (ks : Nat → Nat) : Nat → List Nat → List Nat
  | _, [] => []
  | i, b :: bs => (b ^^^ ks i % 256) :: cryptFrom ks (i + 1) bs

/-- Modelled from the spec: the external crypto substrate's
`crypt_no_auth(data, nonce, secret)` (unauthenticated symmetric stream
encryption, spec section 6). For a fixed shared secret, `cks nonce` is the
keystream determined by the nonce. -/
def cryptNoAuth (cks : List Nat → Nat → Nat) (nonce : List Nat) (data : List Nat) : List Nat :=
  cryptFrom (cks nonce) 0 data

/-- Modelled from the spec: `veilid.Nonce.from_bytes` combined with the
substrate's fixed nonce size — decoding fails when fewer than NONCE_LENGTH
bytes are available (spec section 4.1: decode fails if the payload is shorter
than the nonce length). -/
def nonceFromBytes (bs : List Nat) : Option (List Nat) :=
  if bs.length = NONCE_LENGTH then some bs else none

/-- `sender.encrypt` (chat.py lines 52-62): UTF-8-encode the cleartext,
encrypt it under the shared secret with a fresh random nonce, and prepend the
nonce's bytes. -/
def encrypt (cks : List Nat → Nat → Nat) (nonce : List Nat) (cleartext : List Nat) : List Nat :=
  nonce ++ cryptNoAuth cks nonce (utf8Encode cleartext)

/-- `receiver.decrypt` (chat.py lines 98-108): split the first NONCE_LENGTH
bytes off as the nonce, decrypt the remainder under the shared secret, and
UTF-8-decode the result; `none` models the propagated exception. -/
def decrypt (cks : List Nat → Nat → Nat) (payload : List Nat) : Option (List Nat) :=
  match nonceFromBytes (payload.take NONCE_LENGTH) with
  | none => none
  | some nonce => utf8Decode (cryptNoAuth cks nonce (payload.drop NONCE_LENGTH))

theorem cryptFrom_cryptFrom (ks : Nat → Nat) (bs : List Nat) :
    ∀ i : Nat, cryptFrom ks i (cryptFrom ks i bs) = bs := by
  induction bs with
  | nil => intro i; rfl
  | cons b rest ih =>
    intro i
    rw [cryptFrom, cryptFrom, ih (i + 1), Nat.xor_assoc, Nat.xor_self, Nat.xor_zero]

/- Chat protocol, from src/veilid_demo/chat.py. -/

/-- QUIT from chat.py line 16: the termination sentinel plaintext. -/
def quitMsg : List Nat := strCodes "QUIT"

/-- The fixed greeting written by the sender before any input is read
(chat.py line 73). -/
def greeting : List Nat := strCodes "Hello from the world!"

/-- A DHT subkey value as returned by `get_dht_value`: payload bytes plus the
substrate-maintained sequence number. -/
structure ValueData where
  seq : Nat
  data : List Nat
deriving DecidableEq

/-- Outcome of one iteration of the receiver's poll loop
(chat.py lines 119-137). -/
inductive PollOutcome where
  | noValue
  | stale
  | decodeError
  | quit
  | delivered (msg : List Nat) (newSeq : Nat)
deriving DecidableEq

/-- One iteration of the receiver loop (chat.py lines 119-137): a missing
value or an unchanged sequence number yields nothing; otherwise the payload is
decrypted, QUIT ends the loop, and any other message is delivered together
with its sequence number. -/
def receiverPoll (cks : List Nat → Nat → Nat) (lastSeq : Int) (resp : Option ValueData) :
    PollOutcome :=
  match resp with
  | none => PollOutcome.noValue
  | some v =>
    if (v.seq : Int) = lastSeq then PollOutcome.stale
    else
      match decrypt cks v.data with
      | none => PollOutcome.decodeError
      | some msg =>
        if msg = quitMsg then PollOutcome.quit else PollOutcome.delivered msg v.seq

/-- How a finite run of the receiver loop ended. -/
inductive RunEnd where
  | exhausted (lastSeq : Int)
  | closed
  | failed
deriving DecidableEq

/-- The receiver procedure (chat.py lines 110-137) over a finite list of poll
responses: starts from a given `last_seq`, collects the delivered (printed)
messages in order, and reports how the run ended. `closed` is the return after
the QUIT sentinel; `failed` is a propagated decrypt exception. -/
def receiverRun (cks : List Nat → Nat → Nat) : Int → List (Option ValueData) →
    List (List Nat) × RunEnd
  | lastSeq, [] => ([], RunEnd.exhausted lastSeq)
  | lastSeq, r :: rs =>
    match receiverPoll cks lastSeq r with
    | PollOutcome.noValue => receiverRun cks lastSeq rs
    | PollOutcome.stale => receiverRun cks lastSeq rs
    | PollOutcome.decodeError => ([], RunEnd.failed)
    | PollOutcome.quit => ([], RunEnd.closed)
    | PollOutcome.delivered m s =>
      ((receiverRun cks (s : Int) rs).1.cons m, (receiverRun cks (s : Int) rs).2)

/-- The initial value of `last_seq` (chat.py line 110). -/
def initialLastSeq : Int := -1

/-- The sender's input-reading loop (chat.py lines 75-85) with the console
modelled as the finite list of lines before EOF: each line is encrypted with
the next fresh nonce and written to the send subkey; on EOF the QUIT sentinel
is encrypted and written, and the loop returns. `nonces i` is the i-th nonce
handed out by `random_nonce`, counting from the priming write. -/
def senderLoop (cks : List Nat → Nat → Nat) (nonces : Nat → List Nat) (sendSubkey : Nat) :
    Nat → List (List Nat) → List (Nat × List Nat)
  | i, [] => [(sendSubkey, encrypt cks (nonces i) quitMsg)]
  | i, m :: ms => (sendSubkey, encrypt cks (nonces i) m) :: senderLoop cks nonces sendSubkey (i + 1) ms

/-- The sender procedure (chat.py lines 43-85): the priming write of the fixed
greeting, then the input loop. Returns the (subkey, ciphertext) writes issued
to the DHT, in order. -/
def senderRun (cks : List Nat → Nat → Nat) (nonces : Nat → List Nat) (sendSubkey : Nat)
    (inputs : List (List Nat)) : List (Nat × List Nat) :=
  (sendSubkey, encrypt cks (nonces 0) greeting) :: senderLoop cks nonces sendSubkey 1 inputs

/-- Restatement of the spec's description of the sender (spec sections 4.3 and
the claim): the values written are exactly the greeting, then each input line,
then the QUIT sentinel, each encrypted with the successive fresh nonces and
all addressed to the same send subkey. -/
def specSenderWrites (cks : List Nat → Nat → Nat) (nonces : Nat → List Nat) (sendSubkey : Nat)
    (inputs : List (List Nat)) : List (Nat × List Nat) :=
  (greeting :: (inputs ++ [quitMsg])).enum.map
    (fun p => (sendSubkey, encrypt cks (nonces p.1) p.2))

/-- DHT operations appearing in the orchestrator's teardown
(chat.py lines 191-202 and 239-250). -/
inductive DhtOp where
  | closeRec
  | deleteRec
  | cancelRecv
  | cancelSend
deriving DecidableEq

/-- Failures of the external DHT calls during teardown. -/
inductive TearErr where
  | notFound
  | other
deriving DecidableEq

/-- The tail of `start`/`respond` (chat.py lines 191-202 and 239-250):
`asyncio.wait(..., FIRST_COMPLETED)` has returned (with `bodyErr` the pending
exception of the `try` body, if any), and the `finally` block runs
`close_dht_record` then `delete_dht_record`; afterwards the two tasks are
cancelled. Returns the DHT/cancel operations performed, in order, and the
exception (if any) that propagates out. Python semantics: an exception raised
inside `finally` replaces the pending one and aborts the rest of the block;
the cancellations after the `try` statement run only when nothing is
propagating. -/
def sessionTail (bodyErr closeErr deleteErr : Option TearErr) : List DhtOp × Option TearErr :=
  match closeErr with
  | some e => ([DhtOp.closeRec], some e)
  | none =>
    match deleteErr with
    | some e => ([DhtOp.closeRec, DhtOp.deleteRec], some e)
    | none =>
      match bodyErr with
      | some e => ([DhtOp.closeRec, DhtOp.deleteRec], some e)
      | none => ([DhtOp.closeRec, DhtOp.deleteRec, DhtOp.cancelRecv, DhtOp.cancelSend], none)

/-- Exit-code behaviour of `start` (chat.py lines 151-159), as a function of
the loaded identity and friend key: `sys.exit(1)` when `load_self_key` returns
`None`, else `sys.exit(1)` when `load_friend_key` returns `None`, else the
run completes with exit code 0. -/
def startExitCode (identity friend : Option (List Nat)) : Nat :=
  if identity.isNone then 1 else if friend.isNone then 1 else 0

/-- Exit-code behaviour of `respond` (chat.py lines 213-221), identical in
shape to `start`. -/
def respondExitCode (identity friend : Option (List Nat)) : Nat :=
  if identity.isNone then 1 else if friend.isNone then 1 else 0

/-- Python truthiness of `load_self_key`'s result, an `Optional[KeyPair]`
where `KeyPair` is a `str` subclass: truthy exactly when present and
non-empty. Used by `keygen` (chat.py line 261). -/
def kpTruthy : Option (List Nat) → Bool
  | none => false
  | some s => !s.isEmpty

/-- Exit-code behaviour of `keygen` (chat.py lines 261-279): `sys.exit(1)`
when the keystore already holds a (truthy) keypair, else generate, store and
complete with exit code 0. -/
def keygenExitCode (identity : Option (List Nat)) : Nat :=
  if kpTruthy identity then 1 else 0

/- Keystore wrapper, from src/veilid_demo/config.py. -/

/-- Modelled from the spec: the external encrypted table store
(`open_table_db` handles), as a list of (key bytes, value bytes) entries with
distinct keys; `store` overwrites, `load` looks up. -/
def Tdb : Type := List (List Nat × List Nat)

/-- `tdb.store(key_bytes, value_bytes)`: overwrite any entry with the same
key. -/
def tdbStore (t : Tdb) (k v : List Nat) : Tdb :=
  (k, v) :: List.filter (fun e => !(e.1 == k)) t

/-- `tdb.load(key_bytes)`. -/
def tdbLoad : Tdb → List Nat → Option (List Nat)
  | [], _ => none
  | (k, v) :: rest, key => if k = key then some v else tdbLoad rest key

/-- `tdb.get_keys()`. -/
def tdbKeys (t : Tdb) : List (List Nat) := t.map Prod.fst

/-- SELF_KEY from config.py line 12. -/
def SELF_KEY : List Nat := strCodes "self"

/-- FRIEND_PREFIX from config.py line 13 (renamed here): the tag prepended to
a friend's name to form their table key. -/
def friendTag : List Nat := strCodes "friend:"

/-- `store_key` (config.py lines 16-25): UTF-8-encode key and value and write
them to the table. -/
def storeKey (t : Tdb) (key value : List Nat) : Tdb :=
  tdbStore t (utf8Encode key) (utf8Encode value)

/-- `load_key` (config.py lines 28-40): look the encoded key up and decode the
value; `none` covers the absent-key case (an undecodable stored value, which
in Python would raise, is also `none` here — no claim depends on telling the
two apart). -/
def loadKey (t : Tdb) (key : List Nat) : Option (List Nat) :=
  match tdbLoad t (utf8Encode key) with
  | none => none
  | some vb => utf8Decode vb

/-- `store_self_key` (config.py lines 43-46); a veilid `KeyPair` is a `str`
subclass, so `str(keypair)` is the keypair itself. -/
def storeSelfKey (t : Tdb) (keypair : List Nat) : Tdb :=
  storeKey t SELF_KEY keypair

/-- `load_self_key` (config.py lines 49-55). -/
def loadSelfKey (t : Tdb) : Option (List Nat) :=
  loadKey t SELF_KEY

/-- `store_friend_key` (config.py lines 76-81). -/
def storeFriendKey (t : Tdb) (name pubkey : List Nat) : Tdb :=
  storeKey t (friendTag ++ name) pubkey

/-- `load_friend_key` (config.py lines 84-92). -/
def loadFriendKey (t : Tdb) (name : List Nat) : Option (List Nat) :=
  loadKey t (friendTag ++ name)

/-- Total lexicographic comparison of code-point strings, the order Python's
`list.sort()` uses on `str`. -/
def lexLe : List Nat → List Nat → Bool
  | [], _ => true
  | _ :: _, [] => false
  | a :: as, b :: bs => if a < b then true else if a = b then lexLe as bs else false

/-- Insert into a sorted list, keeping it sorted under `lexLe`. -/
def insertSorted (x : List Nat) : List (List Nat) → List (List Nat)
  | [] => [x]
  | y :: ys => if lexLe x y then x :: y :: ys else y :: insertSorted x ys

/-- Sorting by `lexLe` (extensionally, `names.sort()` in config.py line 71). -/
def sortNames : List (List Nat) → List (List Nat)
  | [] => []
  | x :: xs => insertSorted x (sortNames xs)

/-- The collection loop of `friends` (config.py lines 66-69): decode each
table key (`none` models the `UnicodeDecodeError` a corrupt key would raise)
and keep the tail of every key carrying the friend tag. -/
def collectFriends : List (List Nat) → Option (List (List Nat))
  | [] => some []
  | kb :: rest =>
    match utf8Decode kb with
    | none => none
    | some key =>
      match collectFriends rest with
      | none => none
      | some ns =>
        if friendTag.isPrefixOf key then some (key.drop friendTag.length :: ns) else some ns

/-- `friends` (config.py lines 58-73): the decoded, tag-stripped, sorted list
of friend names in the keystore. -/
def friends (t : Tdb) : Option (List (List Nat)) :=
  (collectFriends (tdbKeys t)).map sortNames

/-- `keygen` (chat.py lines 253-279) as a keystore transition: when the store
already holds a truthy keypair it is left unchanged, the run exits with code 1
and the existing keypair is the one reported; otherwise the fresh keypair is
stored and the run completes with exit code 0. Result:
(store afterwards, exit code, reported pre-existing keypair). -/
def keygenRun (t : Tdb) (newKp : List Nat) : Tdb × Nat × Option (List Nat) :=
  if kpTruthy (loadSelfKey t) then (t, 1, loadSelfKey t)
  else (storeSelfKey t newKp, 0, none)

/- Shared helper lemmas. -/

theorem receiverPoll_delivered_ne_quit (cks : List Nat → Nat → Nat) (lastSeq : Int)
    (r : Option ValueData) (m : List Nat) (s : Nat)
    (hp : receiverPoll cks lastSeq r = PollOutcome.delivered m s) : m ≠ quitMsg := by
  cases r with
  | none => exact absurd hp (by simp [receiverPoll])
  | some v =>
    simp only [receiverPoll] at hp
    split at hp
    · exact absurd hp (by simp)
    · split at hp
      · exact absurd hp (by simp)
      · split at hp
        · exact absurd hp (by simp)
        · next hne =>
          injection hp with h1 h2
          exact h1 ▸ hne

theorem receiverRun_delivered_cons (cks : List Nat → Nat → Nat) (lastSeq : Int)
    (r : Option ValueData) (rs : List (Option ValueData)) (m : List Nat) (s : Nat)
    (hp : receiverPoll cks lastSeq r = PollOutcome.delivered m s) :
    receiverRun cks lastSeq (r :: rs) =
      ((receiverRun cks (s : Int) rs).1.cons m, (receiverRun cks (s : Int) rs).2) := by
  rw [receiverRun, hp]

theorem receiverRun_no_quit (cks : List Nat → Nat → Nat) :
    ∀ (rs : List (Option ValueData)) (lastSeq : Int),
    quitMsg ∉ (receiverRun cks lastSeq rs).1 := by
  intro rs
  induction rs with
  | nil => intro lastSeq; simp [receiverRun]
  | cons r rest ih =>
    intro lastSeq
    rw [receiverRun]
    cases hp : receiverPoll cks lastSeq r with
    | noValue => exact ih lastSeq
    | stale => exact ih lastSeq
    | decodeError => simp
    | quit => simp
    | delivered m s =>
      simp only [List.cons, List.mem_cons, not_or]
      exact ⟨fun h => receiverPoll_delivered_ne_quit cks lastSeq r m s hp h.symm, ih (s : Int)⟩

theorem receiverRun_stale_replicate (cks : List Nat → Nat → Nat) (v : ValueData) :
    ∀ n : Nat, receiverRun cks (v.seq : Int) (List.replicate n (some v)) =
      ([], RunEnd.exhausted (v.seq : Int)) := by
  intro n
  induction n with
  | zero => rfl
  | succ k ih =>
    rw [List.replicate_succ, receiverRun]
    have hp : receiverPoll cks (v.seq : Int) (some v) = PollOutcome.stale := by
      simp [receiverPoll]
    rw [hp]
    exact ih

theorem senderLoop_eq_enumFrom (cks : List Nat → Nat → Nat) (nonces : Nat → List Nat)
    (k : Nat) (ms : List (List Nat)) :
    ∀ i : Nat, senderLoop cks nonces k i ms =
      (List.enumFrom i (ms ++ [quitMsg])).map (fun p => (k, encrypt cks (nonces p.1) p.2)) := by
  induction ms with
  | nil => intro i; simp [senderLoop, List.enumFrom]
  | cons m rest ih => intro i; simp [senderLoop, List.enumFrom, ih (i + 1)]

theorem isPrefixOf_append_self (l₁ l₂ : List Nat) : l₁.isPrefixOf (l₁ ++ l₂) = true := by
  induction l₁ with
  | nil => cases l₂ <;> rfl
  | cons a as ih => simp [List.isPrefixOf, ih]

theorem mem_insertSorted (a x : List Nat) (l : List (List Nat)) :
    a ∈ insertSorted x l ↔ a = x ∨ a ∈ l := by
  induction l with
  | nil => simp [insertSorted]
  | cons y ys ih =>
    rw [insertSorted]
    split
    · simp
    · simp [ih]
      tauto

theorem mem_sortNames (a : List Nat) (l : List (List Nat)) :
    a ∈ sortNames l ↔ a ∈ l := by
  induction l with
  | nil => simp [sortNames]
  | cons x xs ih => rw [sortNames, mem_insertSorted, ih]; simp

theorem loadKey_storeKey_same (t : Tdb) (k v : List Nat) :
    loadKey (storeKey t k v) k = utf8Decode (utf8Encode v) := by
  unfold loadKey storeKey tdbStore tdbLoad
  rw [if_pos rfl]

theorem collectFriends_cons_tagged (kb : List Nat) (rest : List (List Nat)) (name : List Nat)
    (hdec : utf8Decode kb = some (friendTag ++ name)) :
    collectFriends (kb :: rest) = (collectFriends rest).map (fun ms => name :: ms) := by
  rw [collectFriends, hdec]
  cases hcf : collectFriends rest with
  | none => rfl
  | some ms =>
    show (if friendTag.isPrefixOf (friendTag ++ name) then
      some ((friendTag ++ name).drop friendTag.length :: ms) else some ms) = some (name :: ms)
    rw [if_pos (isPrefixOf_append_self friendTag name), List.drop_left]

/- Claim theorems. -/

/-- Claim C1: for every plaintext string P and shared secret (keystream
family), decrypting the result of encrypting P — a 24-byte random nonce
prepended to the unauthenticated ciphertext — yields P again. -/
theorem C1_encrypt_decrypt_roundtrip (cks : List Nat → Nat → Nat) (nonce P : List Nat)
    (hn : nonce.length = NONCE_LENGTH) (hP : ∀ c ∈ P, ValidCodepoint c) :
    decrypt cks (encrypt cks nonce P) = some P := by
  have ht : (encrypt cks nonce P).take NONCE_LENGTH = nonce := by
    rw [encrypt, ← hn, List.take_left]
  have hd : (encrypt cks nonce P).drop NONCE_LENGTH = cryptNoAuth cks nonce (utf8Encode P) := by
    rw [encrypt, ← hn, List.drop_left]
  unfold decrypt nonceFromBytes
  rw [ht, hd, if_pos hn]
  show utf8Decode (cryptNoAuth cks nonce (cryptNoAuth cks nonce (utf8Encode P))) = some P
  unfold cryptNoAuth
  rw [cryptFrom_cryptFrom]
  exact utf8Decode_encode P hP

/-- Witness for C1 at a concrete keystream, nonce and plaintext. -/
theorem C1_roundtrip_witness :
    (List.replicate 24 37).length = NONCE_LENGTH ∧
    (∀ c ∈ strCodes "hi", ValidCodepoint c) ∧
    decrypt (fun nce i => nce.headD 0 + i) (encrypt (fun nce i => nce.headD 0 + i)
      (List.replicate 24 37) (strCodes "hi")) = some (strCodes "hi") :=
  ⟨by decide, by decide,
   C1_encrypt_decrypt_roundtrip (fun nce i => nce.headD 0 + i) (List.replicate 24 37)
     (strCodes "hi") (by decide) (by decide)⟩

/-- Claim C2: the receiver's `last_seq` starts at the sentinel -1, so the
first non-empty value polled is never skipped as stale — whatever its
sequence number, 0 included — and, when it decrypts to an ordinary message,
that message is delivered and the sequence number recorded. -/
theorem C2_first_value_delivered (cks : List Nat → Nat → Nat) (v : ValueData)
    (m : List Nat) (rs : List (Option ValueData)) :
    receiverPoll cks initialLastSeq (some v) ≠ PollOutcome.stale ∧
    (decrypt cks v.data = some m → m ≠ quitMsg →
      receiverRun cks initialLastSeq (some v :: rs) =
        ((receiverRun cks (v.seq : Int) rs).1.cons m, (receiverRun cks (v.seq : Int) rs).2)) := by
  have hne : ¬((v.seq : Int) = initialLastSeq) := by
    unfold initialLastSeq
    omega
  constructor
  · simp only [receiverPoll]
    rw [if_neg hne]
    cases hd : decrypt cks v.data with
    | none => simp
    | some msg =>
      show ¬(if msg = quitMsg then PollOutcome.quit else PollOutcome.delivered msg v.seq) =
        PollOutcome.stale
      split <;> simp
  · intro hdec hq
    have hp : receiverPoll cks initialLastSeq (some v) = PollOutcome.delivered m v.seq := by
      simp only [receiverPoll]
      rw [if_neg hne, hdec]
      show (if m = quitMsg then PollOutcome.quit else PollOutcome.delivered m v.seq) =
        PollOutcome.delivered m v.seq
      rw [if_neg hq]
    exact receiverRun_delivered_cons cks initialLastSeq (some v) rs m v.seq hp

/-- Witness for C2 at a concrete payload whose sequence number is 0. -/
theorem C2_witness :
    decrypt (fun _ _ => 0) (List.replicate 24 0 ++ utf8Encode (strCodes "hi")) =
      some (strCodes "hi") ∧
    strCodes "hi" ≠ quitMsg ∧
    receiverRun (fun _ _ => 0) initialLastSeq
      [some ⟨0, List.replicate 24 0 ++ utf8Encode (strCodes "hi")⟩] =
      ([strCodes "hi"], RunEnd.exhausted 0) :=
  ⟨by decide, by decide,
   (C2_first_value_delivered (fun _ _ => 0)
     ⟨0, List.replicate 24 0 ++ utf8Encode (strCodes "hi")⟩ (strCodes "hi") []).2
     (by decide) (by decide)⟩

/-- Claim C3: per poll of the read subkey — a missing value yields nothing, a
value whose sequence number equals the last observed one yields nothing, and
a changed sequence number gets the payload decoded, delivered and its
sequence number recorded, so a message is delivered exactly once no matter
how often the same value is polled again. -/
theorem C3_poll_dedup (cks : List Nat → Nat → Nat) (lastSeq : Int) (v : ValueData)
    (m : List Nat) (rs : List (Option ValueData)) (n : Nat) :
    (receiverRun cks lastSeq (none :: rs) = receiverRun cks lastSeq rs) ∧
    ((v.seq : Int) = lastSeq →
      receiverRun cks lastSeq (some v :: rs) = receiverRun cks lastSeq rs) ∧
    ((v.seq : Int) ≠ lastSeq → decrypt cks v.data = some m → m ≠ quitMsg →
      receiverRun cks lastSeq (some v :: rs) =
        ((receiverRun cks (v.seq : Int) rs).1.cons m, (receiverRun cks (v.seq : Int) rs).2) ∧
      (receiverRun cks lastSeq (some v :: List.replicate n (some v))).1 = [m]) := by
  refine ⟨rfl, fun heq => ?_, fun hne hdec hq => ?_⟩
  · rw [receiverRun]
    have hp : receiverPoll cks lastSeq (some v) = PollOutcome.stale := by
      simp only [receiverPoll]
      rw [if_pos heq]
    rw [hp]
  · have hp : receiverPoll cks lastSeq (some v) = PollOutcome.delivered m v.seq := by
      simp only [receiverPoll]
      rw [if_neg hne, hdec]
      show (if m = quitMsg then PollOutcome.quit else PollOutcome.delivered m v.seq) =
        PollOutcome.delivered m v.seq
      rw [if_neg hq]
    constructor
    · exact receiverRun_delivered_cons cks lastSeq (some v) rs m v.seq hp
    · rw [receiverRun_delivered_cons cks lastSeq (some v) _ m v.seq hp,
        receiverRun_stale_replicate cks v n]

/-- Witness for C3: a stale poll delivers nothing; a fresh value polled three
times in a row is delivered exactly once. -/
theorem C3_witness :
    receiverRun (fun _ _ => 0) 5 [some ⟨5, []⟩] = receiverRun (fun _ _ => 0) 5 [] ∧
    (receiverRun (fun _ _ => 0) initialLastSeq
      (some ⟨0, List.replicate 24 0 ++ utf8Encode (strCodes "hi")⟩ ::
        List.replicate 2 (some ⟨0, List.replicate 24 0 ++ utf8Encode (strCodes "hi")⟩))).1 =
      [strCodes "hi"] :=
  ⟨(C3_poll_dedup (fun _ _ => 0) 5 ⟨5, []⟩ [] [] 0).2.1 (by decide),
   ((C3_poll_dedup (fun _ _ => 0) initialLastSeq
      ⟨0, List.replicate 24 0 ++ utf8Encode (strCodes "hi")⟩ (strCodes "hi")
      (List.replicate 2 (some ⟨0, List.replicate 24 0 ++ utf8Encode (strCodes "hi")⟩)) 2).2.2
      (by decide) (by decide) (by decide)).2⟩

/-- Claim C4: the sender's first write is the fixed greeting, each input line
read afterwards is encrypted and written to the same send subkey in order,
and EOF makes it write the QUIT sentinel and stop. -/
theorem C4_sender_writes (cks : List Nat → Nat → Nat) (nonces : Nat → List Nat)
    (sendSubkey : Nat) (inputs : List (List Nat)) :
    senderRun cks nonces sendSubkey inputs = specSenderWrites cks nonces sendSubkey inputs := by
  unfold senderRun specSenderWrites
  rw [senderLoop_eq_enumFrom]
  simp [List.enum, List.enumFrom]

/-- Claim C5: a delivered message equal to the QUIT sentinel makes the
receiver print the closing notice and return, and the sentinel is never
among the messages printed as ordinary chat lines. -/
theorem C5_quit_closes (cks : List Nat → Nat → Nat) (lastSeq : Int) (v : ValueData)
    (rs : List (Option ValueData)) :
    (decrypt cks v.data = some quitMsg → (v.seq : Int) ≠ lastSeq →
      receiverRun cks lastSeq (some v :: rs) = ([], RunEnd.closed)) ∧
    quitMsg ∉ (receiverRun cks lastSeq rs).1 := by
  constructor
  · intro hdec hne
    have hp : receiverPoll cks lastSeq (some v) = PollOutcome.quit := by
      simp only [receiverPoll]
      rw [if_neg hne, hdec]
      show (if quitMsg = quitMsg then PollOutcome.quit else
        PollOutcome.delivered quitMsg v.seq) = PollOutcome.quit
      rw [if_pos rfl]
    rw [receiverRun, hp]
  · exact receiverRun_no_quit cks rs lastSeq

/-- Witness for C5 at a concrete QUIT payload. -/
theorem C5_witness :
    decrypt (fun _ _ => 0) (List.replicate 24 0 ++ utf8Encode quitMsg) = some quitMsg ∧
    receiverRun (fun _ _ => 0) initialLastSeq
      [some ⟨0, List.replicate 24 0 ++ utf8Encode quitMsg⟩] = ([], RunEnd.closed) :=
  ⟨by decide,
   (C5_quit_closes (fun _ _ => 0) initialLastSeq
     ⟨0, List.replicate 24 0 ++ utf8Encode quitMsg⟩ []).1 (by decide) (by decide)⟩

/-- Counterexample to claim C6 as stated: a "not found" failure of
`close_dht_record` during teardown is not treated as success — the error
propagates (and the delete is not even reached), because the `finally` block
in chat.py lines 194-198 contains no exception handling. -/
theorem C6_counterexample :
    sessionTail none (some TearErr.notFound) none =
      ([DhtOp.closeRec], some TearErr.notFound) := rfl

/-- Claim C6 (amended): once either task completes the orchestrator closes
then deletes the shared record, in that order, inside a cleanup block that
runs even if a task raised; but failures of close or delete during teardown,
"not found" included, propagate rather than being treated as success, and a
close failure skips the delete. -/
theorem C6_teardown_amended (b c d : Option TearErr) :
    (sessionTail b c d).1.head? = some DhtOp.closeRec ∧
    (c = none → (sessionTail b c d).1.take 2 = [DhtOp.closeRec, DhtOp.deleteRec]) ∧
    (∀ e, c = some e → sessionTail b c d = ([DhtOp.closeRec], some e)) ∧
    (∀ e, c = none → d = some e →
      sessionTail b c d = ([DhtOp.closeRec, DhtOp.deleteRec], some e)) ∧
    (c = none → d = none → (sessionTail b c d).2 = b) := by
  cases c <;> cases d <;> cases b <;> simp [sessionTail]

/-- Witness for the amended C6: the cleanup runs with a task exception
pending, and a delete failure propagates. -/
theorem C6_witness :
    (sessionTail (some TearErr.other) none none).1.take 2 =
      [DhtOp.closeRec, DhtOp.deleteRec] ∧
    sessionTail none none (some TearErr.notFound) =
      ([DhtOp.closeRec, DhtOp.deleteRec], some TearErr.notFound) :=
  ⟨(C6_teardown_amended (some TearErr.other) none none).2.1 rfl,
   (C6_teardown_amended none none (some TearErr.notFound)).2.2.2.1 TearErr.notFound rfl rfl⟩

/-- Claim C7: decryption fails exactly when the payload is shorter than the
24-byte nonce or the remaining bytes do not decrypt to valid UTF-8, and such
a failure ends the receiver procedure as a fatal error instead of being
masked. -/
theorem C7_decode_failure_fatal (cks : List Nat → Nat → Nat) (payload : List Nat)
    (v : ValueData) (lastSeq : Int) (rs : List (Option ValueData)) :
    (decrypt cks payload = none ↔
      payload.length < NONCE_LENGTH ∨
      utf8Decode (cryptNoAuth cks (payload.take NONCE_LENGTH)
        (payload.drop NONCE_LENGTH)) = none) ∧
    ((v.seq : Int) ≠ lastSeq → decrypt cks v.data = none →
      receiverRun cks lastSeq (some v :: rs) = ([], RunEnd.failed)) := by
  constructor
  · by_cases hlen : payload.length < NONCE_LENGTH
    · have hne : ¬((payload.take NONCE_LENGTH).length = NONCE_LENGTH) := by
        rw [List.length_take]
        omega
      unfold decrypt nonceFromBytes
      rw [if_neg hne]
      simp [hlen]
    · have heq : (payload.take NONCE_LENGTH).length = NONCE_LENGTH := by
        rw [List.length_take]
        omega
      unfold decrypt nonceFromBytes
      rw [if_pos heq]
      show utf8Decode (cryptNoAuth cks (payload.take NONCE_LENGTH)
        (payload.drop NONCE_LENGTH)) = none ↔ _
      simp [hlen]
  · intro hne hdec
    have hp : receiverPoll cks lastSeq (some v) = PollOutcome.decodeError := by
      simp only [receiverPoll]
      rw [if_neg hne, hdec]
    rw [receiverRun, hp]

/-- Witness for C7: a one-byte payload is too short to decrypt, and a payload
whose ciphertext decrypts to the invalid byte 255 kills the receiver run. -/
theorem C7_witness :
    decrypt (fun _ _ => 0) [255] = none ∧
    ((0 : Int) ≠ initialLastSeq ∧
      decrypt (fun _ _ => 0) (List.replicate 24 0 ++ [255]) = none ∧
      receiverRun (fun _ _ => 0) initialLastSeq
        [some ⟨0, List.replicate 24 0 ++ [255]⟩] = ([], RunEnd.failed)) :=
  ⟨(C7_decode_failure_fatal (fun _ _ => 0) [255] ⟨0, []⟩ 0 []).1.mpr (by decide),
   by decide, by decide,
   (C7_decode_failure_fatal (fun _ _ => 0) [] ⟨0, List.replicate 24 0 ++ [255]⟩
     initialLastSeq []).2 (by decide) (by decide)⟩

/-- Counterexample to claim C8 as stated: `keygen` on a keystore that already
holds an identity exits with code 1 even though neither the identity nor any
friend key is missing, so "exit 1 exactly on missing identity or missing
friend key, 0 otherwise" is false. -/
theorem C8_counterexample :
    keygenExitCode (some (strCodes "k")) = 1 ∧
    (some (strCodes "k")).isSome = true := by decide

/-- Claim C8 (amended): `start` and `respond` exit with code 1 exactly when
the local identity or the named friend's key is missing and complete with
code 0 otherwise; `keygen` exits with code 1 exactly when the keystore
already holds a (truthy) keypair and completes with code 0 otherwise. -/
theorem C8_exit_codes_amended (i f : Option (List Nat)) :
    (startExitCode i f = 1 ↔ i = none ∨ f = none) ∧
    (startExitCode i f = 0 ↔ ¬(i = none ∨ f = none)) ∧
    respondExitCode i f = startExitCode i f ∧
    (keygenExitCode i = 1 ↔ kpTruthy i = true) ∧
    (keygenExitCode i = 0 ↔ kpTruthy i = false) := by
  unfold startExitCode respondExitCode keygenExitCode
  cases i <;> cases f <;> simp [kpTruthy]

/-- Claim C9: when the identity store already holds a keypair, `keygen`
leaves the store unchanged, generates and stores nothing new, and reports the
existing keypair (exiting with code 1). -/
theorem C9_keygen_refuses_overwrite (t : Tdb) (kp newKp : List Nat)
    (h : loadSelfKey t = some kp) (hne : kp ≠ []) :
    keygenRun t newKp = (t, 1, some kp) ∧
    loadSelfKey (keygenRun t newKp).1 = some kp := by
  have ht : kpTruthy (loadSelfKey t) = true := by
    rw [h]
    cases kp with
    | nil => exact absurd rfl hne
    | cons a as => rfl
  constructor
  · rw [keygenRun, if_pos ht, h]
  · rw [keygenRun, if_pos ht]
    exact h

/-- Witness for C9 on a keystore holding the keypair "k1". -/
theorem C9_witness :
    loadSelfKey (storeSelfKey [] (strCodes "k1")) = some (strCodes "k1") ∧
    strCodes "k1" ≠ [] ∧
    keygenRun (storeSelfKey [] (strCodes "k1")) (strCodes "k2") =
      (storeSelfKey [] (strCodes "k1"), 1, some (strCodes "k1")) :=
  ⟨by decide, by decide,
   (C9_keygen_refuses_overwrite (storeSelfKey [] (strCodes "k1")) (strCodes "k1")
     (strCodes "k2") (by decide) (by decide)).1⟩

/-- Claim C10: the keystore wrapper round-trips identities and contacts —
loading the self identity after storing keypair K returns K, loading friend N
after storing (N, P) returns P, and the friend-tag encoding of names into
table keys is inverted exactly, so N reappears in the friends listing. -/
theorem C10_keystore_roundtrip (t : Tdb) (kp n p : List Nat) (ns : List (List Nat))
    (hkp : ∀ c ∈ kp, ValidCodepoint c) (hn : ∀ c ∈ n, ValidCodepoint c)
    (hp : ∀ c ∈ p, ValidCodepoint c) :
    loadSelfKey (storeSelfKey t kp) = some kp ∧
    loadFriendKey (storeFriendKey t n p) n = some p ∧
    (friends (storeFriendKey t n p) = some ns → n ∈ ns) := by
  refine ⟨?_, ?_, ?_⟩
  · rw [loadSelfKey, storeSelfKey, loadKey_storeKey_same]
    exact utf8Decode_encode kp hkp
  · rw [loadFriendKey, storeFriendKey, loadKey_storeKey_same]
    exact utf8Decode_encode p hp
  · intro hf
    have hvkey : ∀ c ∈ friendTag ++ n, ValidCodepoint c := by
      intro c hc
      rcases List.mem_append.mp hc with hc | hc
      · exact (by decide : ∀ x ∈ friendTag, ValidCodepoint x) c hc
      · exact hn c hc
    have hdec : utf8Decode (utf8Encode (friendTag ++ n)) = some (friendTag ++ n) :=
      utf8Decode_encode _ hvkey
    rw [friends] at hf
    simp only [storeFriendKey, storeKey, tdbStore, tdbKeys, List.map_cons] at hf
    rw [collectFriends_cons_tagged _ _ n hdec] at hf
    cases hcf : collectFriends (List.map Prod.fst
        (List.filter (fun e => !(e.1 == utf8Encode (friendTag ++ n))) t)) with
    | none =>
      rw [hcf] at hf
      simp at hf
    | some ms =>
      rw [hcf] at hf
      simp only [Option.map_some'] at hf
      injection hf with hf
      rw [← hf, mem_sortNames]
      simp

/-- Witness for C10 on an empty keystore, the keypair "k", the friend "bob"
and the key "pk". -/
theorem C10_witness :
    loadSelfKey (storeSelfKey [] (strCodes "k")) = some (strCodes "k") ∧
    friends (storeFriendKey [] (strCodes "bob") (strCodes "pk")) =
      some [strCodes "bob"] ∧
    strCodes "bob" ∈ [strCodes "bob"] :=
  ⟨(C10_keystore_roundtrip [] (strCodes "k") (strCodes "bob") (strCodes "pk")
      [strCodes "bob"] (by decide) (by decide) (by decide)).1,
   by decide,
   (C10_keystore_roundtrip [] (strCodes "k") (strCodes "bob") (strCodes "pk")
      [strCodes "bob"] (by decide) (by decide) (by decide)).2.2 (by decide)⟩
